import Mathlib

/-
Verification of the SIR simulation core of the ModSimPy notebooks
(src/code/chap12.ipynb and src/code/chap14.ipynb) against their
natural-language specification.

The notebooks' own functions (make_system, update_func, run_simulation,
calc_total_infected, add_immunization, logistic, compute_factor,
add_hand_washing, sweep_hand_washing, sweep_beta, sweep_parameters) are
embedded below, faithfully to the source.  The helper library modsim.py
(State, System, TimeFrame, SweepSeries, SweepFrame, linrange) is not part
of the repository sources, so those containers and linrange are modelled
from the specification, as noted in their doc comments.

Numbers are modelled by exact arithmetic: the rationals for the purely
algebraic core, and the reals where the generalized logistic function
(with exp and a real power) is involved.
-/

namespace SIR

/-- A State bundles the three SIR compartments, as modsim's
State(S=..., I=..., R=...) does. -/
structure State (α : Type) where
  S : α
  I : α
  R : α
  deriving Repr, DecidableEq

/-- A System bundles the initial state, the time range and the two rates,
as modsim's System(init=..., t0=..., t_end=..., beta=..., gamma=...) does. -/
structure System (α : Type) where
  init : State α
  t0 : Int
  t_end : Int
  beta : α
  gamma : α
  deriving Repr, DecidableEq

/-- Modelled from the spec: modsim.py (absent from src/) provides linrange.
The spec's run_simulation iterates t over the integers t0 .. t_end - 1 while
chap12's run_simulation calls linrange(t0, t_end - 1), so linrange(start, stop)
is the inclusive integer range start .. stop; when stop < start the range is
empty (the spec: an empty iteration range, accepted silently). -/
def linrange (start stop : Int) : List Int :=
  if start ≤ stop then
    (List.range ((stop - start).toNat + 1)).map (fun (k : Nat) => start + (k : Int))
  else []

/-- Row lookup by integer label, as pandas frame.row[t] reads a row. -/
def frameFind {β : Type} : List (Int × β) → Int → Option β
  | [], _ => none
  | p :: rest, t => if p.1 = t then some p.2 else frameFind rest t

/-- Row assignment by integer label, as pandas frame.row[t] = v: replace the
row when the label is present, append a new row otherwise. -/
def frameSet {β : Type} (frame : List (Int × β)) (t : Int) (v : β) :
    List (Int × β) :=
  if (frameFind frame t).isSome then
    frame.map (fun p => if p.1 = t then (t, v) else p)
  else frame ++ [(t, v)]

/-- chap12 update_func(state, t, system): one forward-Euler SIR step. -/
def update_func {α : Type} [Ring α] (state : State α) (_t : Int)
    (system : System α) : State α :=
  let s := state.S
  let i := state.I
  let r := state.R
  let infected := system.beta * i * s
  let recovered := system.gamma * i
  let s := s - infected
  let i := i + infected - recovered
  let r := r + recovered
  State.mk s i r

/-- chap14 update_func(state, system): same arithmetic, no time argument. -/
def update_func14 {α : Type} [Ring α] (state : State α)
    (system : System α) : State α :=
  let s := state.S
  let i := state.I
  let r := state.R
  let infected := system.beta * i * s
  let recovered := system.gamma * i
  let s := s - infected
  let i := i + infected - recovered
  let r := r + recovered
  State.mk s i r

/-- chap12 run_simulation(system, update_func): seed the frame with the
initial state at t0, then for t in linrange(t0, t_end - 1) set the row at
t + 1 from the row at t.  The row read defaults to a zero state, but every
read hits a previously written row (proved below). -/
def run_simulation {α : Type} [Ring α] (system : System α)
    (upd : State α → Int → System α → State α) : List (Int × State α) :=
  (linrange system.t0 (system.t_end - 1)).foldl
    (fun frame t =>
      frameSet frame (t + 1)
        (upd ((frameFind frame t).getD (State.mk 0 0 0)) t system))
    (frameSet [] system.t0 system.init)

/-- chap14 run_simulation(system, update_func): identical except that the
loop runs for i in linrange(t0, t_end) and update_func takes no time. -/
def run_simulation14 {α : Type} [Ring α] (system : System α)
    (upd : State α → System α → State α) : List (Int × State α) :=
  (linrange system.t0 system.t_end).foldl
    (fun frame i =>
      frameSet frame (i + 1)
        (upd ((frameFind frame i).getD (State.mk 0 0 0)) system))
    (frameSet [] system.t0 system.init)

/-- The pure step recurrence: entry k of the simulated trajectory, used to
describe the contents of the frame built by run_simulation. -/
def seq {α : Type} (u : State α → Int → State α) (init : State α)
    (t0 : Int) : Nat → State α
  | 0 => init
  | k + 1 => u (seq u init t0 k) (t0 + (k : Int))

/-- make_system(beta, gamma) from both chapters: init = State(S=89, I=1, R=0)
normalized by its sum, t0 = 0, t_end = 7 * 14. -/
def make_system {α : Type} [DivisionRing α] (beta gamma : α) : System α :=
  let init : State α := State.mk 89 1 0
  let total := init.S + init.I + init.R
  let init := State.mk (init.S / total) (init.I / total) (init.R / total)
  System.mk init 0 (7 * 14) beta gamma

/-- calc_total_infected(results, system) = results.S[t0] - results.S[t_end]. -/
def calc_total_infected {α : Type} [Ring α] (results : List (Int × State α))
    (system : System α) : α :=
  ((frameFind results system.t0).getD (State.mk 0 0 0)).S -
    ((frameFind results system.t_end).getD (State.mk 0 0 0)).S

/-- add_immunization(system, fraction): system.init.S -= fraction and
system.init.R += fraction, modelled as returning the mutated system. -/
def add_immunization {α : Type} [Ring α] (system : System α)
    (fraction : α) : System α :=
  { system with
    init := { system.init with
      S := system.init.S - fraction
      R := system.init.R + fraction } }

/-- logistic(x, A=0, B=1, C=1, M=0, K=1, Q=1, nu=1): the generalized
logistic function of chap12, over the reals. -/
noncomputable def logistic (x A B C M K Q nu : ℝ) : ℝ :=
  let exponent := -B * (x - M)
  let denom := C + Q * Real.exp exponent
  A + (K - A) / Real.rpow denom (1 / nu)

/-- compute_factor(spending) = logistic(spending, M=500, K=0.2, B=0.01). -/
noncomputable def compute_factor (spending : ℝ) : ℝ :=
  logistic spending 0 0.01 1 500 0.2 1 1

/-- add_hand_washing(system, spending): system.beta *= (1 - factor),
modelled as returning the mutated system. -/
noncomputable def add_hand_washing (system : System ℝ) (spending : ℝ) :
    System ℝ :=
  { system with beta := system.beta * (1 - compute_factor spending) }

/-- The hand-washing reduction factor exactly as the spec writes it:
factor = A + (K - A) / (C + Q * exp(-B * (spending - M)))^(1 / nu) with
defaults A = 0, C = 1, Q = 1, nu = 1 and configured M = 500, K = 0.2,
B = 0.01.  Stated separately from compute_factor so the code's factor can
be proved equal to the spec's. -/
noncomputable def spec_hand_washing_factor (spending : ℝ) : ℝ :=
  0 + (0.2 - 0) / Real.rpow (1 + 1 * Real.exp (-0.01 * (spending - 500))) (1 / 1)

/-- Module-level constant of chap12: tc = 3, the time between contacts. -/
def tc : ℝ := 3

/-- Module-level constant of chap12: tr = 4, the recovery time. -/
def tr : ℝ := 4

/-- Module-level beta = 1 / tc of chap12, read by sweep_hand_washing. -/
noncomputable def beta : ℝ := 1 / tc

/-- Module-level gamma = 1 / tr of chap12, read by sweep_hand_washing. -/
noncomputable def gamma : ℝ := 1 / tr

/-- chap12 sweep_hand_washing(spending_array): for each spending value make
a system from the module-level beta and gamma, apply add_hand_washing, run
the simulation and record spending -> calc_total_infected.  Modelled from
the spec: SweepSeries (from the absent modsim.py) is a keyed sequence built
by appending one (key, summary) entry per iteration, in sweep order. -/
noncomputable def sweep_hand_washing (spending_array : List ℝ) :
    List (ℝ × ℝ) :=
  spending_array.foldl
    (fun sweep spending =>
      let system := add_hand_washing (make_system beta gamma) spending
      let results := run_simulation system update_func
      sweep ++ [(spending, calc_total_infected results system)])
    []

/-- chap14 sweep_beta(beta_array, gamma): for each beta make a system, run
the chap14 simulation and record system.beta -> calc_total_infected.
Modelled from the spec: SweepSeries is append-in-order, as above. -/
def sweep_beta (beta_array : List ℚ) (gamma : ℚ) : List (ℚ × ℚ) :=
  beta_array.foldl
    (fun sweep beta =>
      let system := make_system beta gamma
      let results := run_simulation14 system update_func14
      sweep ++ [(system.beta, calc_total_infected results system)])
    []

/-- chap14 sweep_parameters(beta_array, gamma_array): one column per gamma,
each column being sweep_beta(beta_array, gamma).  Modelled from the spec:
SweepFrame (from the absent modsim.py) holds one column per swept gamma,
keyed by the gamma value, in sweep order. -/
def sweep_parameters (beta_array gamma_array : List ℚ) :
    List (ℚ × List (ℚ × ℚ)) :=
  gamma_array.foldl
    (fun frame gamma => frame ++ [(gamma, sweep_beta beta_array gamma)])
    []

/-- Looking a label up in a concatenation: a hit in the first part wins. -/
lemma frameFind_append_some {β : Type} (l₁ l₂ : List (Int × β)) (t : Int)
    (v : β) (h : frameFind l₁ t = some v) :
    frameFind (l₁ ++ l₂) t = some v := by
  induction l₁ with
  | nil => simp [frameFind] at h
  | cons p rest ih =>
    by_cases hp : p.1 = t
    · rw [frameFind, if_pos hp] at h
      rw [List.cons_append, frameFind, if_pos hp]
      exact h
    · rw [frameFind, if_neg hp] at h
      rw [List.cons_append, frameFind, if_neg hp]
      exact ih h

/-- Looking a label up in a concatenation: a miss in the first part falls
through to the second. -/
lemma frameFind_append_none {β : Type} (l₁ l₂ : List (Int × β)) (t : Int)
    (h : frameFind l₁ t = none) :
    frameFind (l₁ ++ l₂) t = frameFind l₂ t := by
  induction l₁ with
  | nil => simp
  | cons p rest ih =>
    by_cases hp : p.1 = t
    · rw [frameFind, if_pos hp] at h
      simp at h
    · rw [frameFind, if_neg hp] at h
      rw [List.cons_append, frameFind, if_neg hp]
      exact ih h

/-- Lookup in a frame whose rows are t0 + k for k < n, with row values
g k: the row at t0 + j is g j when j < n, absent otherwise. -/
lemma frameFind_range {β : Type} (g : Nat → β) (t0 : Int) (n j : Nat) :
    frameFind ((List.range n).map (fun (k : Nat) => (t0 + (k : Int), g k)))
      (t0 + (j : Int)) = if j < n then some (g j) else none := by
  induction n with
  | zero => simp [frameFind]
  | succ n ih =>
    rw [List.range_succ, List.map_append]
    by_cases hj : j < n
    · have h₁ : frameFind ((List.range n).map
          (fun (k : Nat) => (t0 + (k : Int), g k))) (t0 + (j : Int)) = some (g j) := by
        rw [ih, if_pos hj]
      rw [frameFind_append_some _ _ _ _ h₁, if_pos (Nat.lt_succ_of_lt hj)]
    · have h₁ : frameFind ((List.range n).map
          (fun (k : Nat) => (t0 + (k : Int), g k))) (t0 + (j : Int)) = none := by
        rw [ih, if_neg hj]
      rw [frameFind_append_none _ _ _ h₁]
      by_cases hjn : j = n
      · subst hjn
        simp [frameFind]
      · have hne : ¬ (t0 + (n : Int) = t0 + (j : Int)) := by omega
        have hlt : ¬ (j < n + 1) := by omega
        simp only [List.map_cons, List.map_nil, frameFind, if_neg hne,
          if_neg hlt]

/-- A successful frame lookup exhibits a member of the frame. -/
lemma frameFind_mem {β : Type} {l : List (Int × β)} {t : Int} {v : β}
    (h : frameFind l t = some v) : (t, v) ∈ l := by
  induction l with
  | nil => simp [frameFind] at h
  | cons p rest ih =>
    by_cases hp : p.1 = t
    · rw [frameFind, if_pos hp] at h
      obtain ⟨p1, p2⟩ := p
      simp only [Option.some.injEq] at h
      subst h
      subst hp
      exact List.mem_cons_self _ _
    · rw [frameFind, if_neg hp] at h
      exact List.mem_cons_of_mem _ (ih h)

/-- The simulation loop of run_simulation, folded over the times
t0, t0 + 1, ..., t0 + (n - 1), turns the one-row frame {t0: init} into the
frame whose row at t0 + k is the k-th state of the step recurrence. -/
lemma fold_sim {α : Type} [Ring α] (u : State α → Int → State α)
    (init : State α) (t0 : Int) (n : Nat) :
    ((List.range n).map (fun (k : Nat) => t0 + (k : Int))).foldl
        (fun frame t =>
          frameSet frame (t + 1)
            (u ((frameFind frame t).getD (State.mk 0 0 0)) t))
        [(t0, init)]
      = (List.range (n + 1)).map
          (fun (k : Nat) => (t0 + (k : Int), seq u init t0 k)) := by
  induction n with
  | zero =>
    have h1 : List.range 1 = [0] := rfl
    simp [h1, seq]
  | succ n ih =>
    rw [List.range_succ, List.map_append, List.foldl_append, ih]
    simp only [List.map_cons, List.map_nil, List.foldl_cons, List.foldl_nil]
    have hfind : frameFind ((List.range (n + 1)).map
        (fun (k : Nat) => (t0 + (k : Int), seq u init t0 k))) (t0 + (n : Int))
        = some (seq u init t0 n) := by
      rw [frameFind_range, if_pos (Nat.lt_succ_self n)]
    have hnone : frameFind ((List.range (n + 1)).map
        (fun (k : Nat) => (t0 + (k : Int), seq u init t0 k))) (t0 + (n : Int) + 1)
        = none := by
      have hc : t0 + (n : Int) + 1 = t0 + ((n + 1 : Nat) : Int) := by
        push_cast
        ring
      rw [hc, frameFind_range, if_neg (by omega)]
    rw [hfind, frameSet, hnone]
    simp only [Option.isSome_none, Bool.false_eq_true, if_false,
      Option.getD_some]
    rw [List.range_succ (n + 1), List.map_append]
    congr 1
    have hc : t0 + ((n + 1 : Nat) : Int) = t0 + (n : Int) + 1 := by
      push_cast
      ring
    simp only [seq, hc, List.map_cons, List.map_nil, List.cons.injEq,
      Prod.mk.injEq, and_true, true_and]

/-- chap12's run_simulation equals the frame whose row at t0 + k is the
k-th state of the step recurrence, for k = 0, ..., (t_end - t0).toNat.
This holds for every time range, the degenerate t_end ≤ t0 one included. -/
lemma run_simulation_eq {α : Type} [Ring α] (system : System α)
    (upd : State α → Int → System α → State α) :
    run_simulation system upd
      = (List.range ((system.t_end - system.t0).toNat + 1)).map
          (fun (k : Nat) => (system.t0 + (k : Int),
            seq (fun s t => upd s t system) system.init system.t0 k)) := by
  have hstart : frameSet ([] : List (Int × State α)) system.t0 system.init
      = [(system.t0, system.init)] := rfl
  unfold run_simulation linrange
  rw [hstart]
  by_cases h : system.t0 ≤ system.t_end - 1
  · rw [if_pos h]
    have hn : (system.t_end - system.t0).toNat
        = (system.t_end - 1 - system.t0).toNat + 1 := by omega
    rw [hn]
    exact fold_sim (fun s t => upd s t system) system.init system.t0
      ((system.t_end - 1 - system.t0).toNat + 1)
  · rw [if_neg h]
    have hn : (system.t_end - system.t0).toNat = 0 := by omega
    rw [hn]
    have h1 : List.range 1 = [0] := rfl
    simp [h1, seq]

/-- chap14's run_simulation equals the frame whose row at t0 + k is the
k-th state of the step recurrence, for k = 0, ..., (t_end - t0 + 1).toNat:
one row more than chap12's version whenever t0 ≤ t_end. -/
lemma run_simulation14_eq {α : Type} [Ring α] (system : System α)
    (upd : State α → System α → State α) :
    run_simulation14 system upd
      = (List.range ((system.t_end - system.t0 + 1).toNat + 1)).map
          (fun (k : Nat) => (system.t0 + (k : Int),
            seq (fun s _ => upd s system) system.init system.t0 k)) := by
  have hstart : frameSet ([] : List (Int × State α)) system.t0 system.init
      = [(system.t0, system.init)] := rfl
  unfold run_simulation14 linrange
  rw [hstart]
  by_cases h : system.t0 ≤ system.t_end
  · rw [if_pos h]
    have hn : (system.t_end - system.t0 + 1).toNat
        = (system.t_end - system.t0).toNat + 1 := by omega
    rw [hn]
    exact fold_sim (fun s _ => upd s system) system.init system.t0
      ((system.t_end - system.t0).toNat + 1)
  · rw [if_neg h]
    have hn : (system.t_end - system.t0 + 1).toNat = 0 := by omega
    rw [hn]
    have h1 : List.range 1 = [0] := rfl
    simp [h1, seq]

/-- Length of the spec-modelled linrange. -/
lemma linrange_length (a b : Int) :
    (linrange a b).length = if a ≤ b then (b - a).toNat + 1 else 0 := by
  unfold linrange
  split <;> simp

/-- Appending one image per element starting from an accumulator is the
accumulator followed by the mapped list. -/
lemma foldl_append_map {β γ : Type} (f : γ → β) (l : List γ)
    (acc : List β) :
    l.foldl (fun a b => a ++ [f b]) acc = acc ++ l.map f := by
  induction l generalizing acc with
  | nil => simp
  | cons x xs ih => simp [ih]

/-- The row of chap12's simulation frame at time t0 + j is the j-th state
of the step recurrence, for every j up to (t_end - t0).toNat. -/
lemma run_simulation_find {α : Type} [Ring α] (system : System α)
    (upd : State α → Int → System α → State α) (j : Nat)
    (hj : j < (system.t_end - system.t0).toNat + 1) :
    frameFind (run_simulation system upd) (system.t0 + (j : Int))
      = some (seq (fun s t => upd s t system) system.init system.t0 j) := by
  rw [run_simulation_eq, frameFind_range, if_pos hj]

/-- Conversely, every row of chap12's simulation frame is a state of the
step recurrence at its own time offset. -/
lemma run_simulation_find_inv {α : Type} [Ring α] {system : System α}
    {upd : State α → Int → System α → State α} {t : Int} {s : State α}
    (h : frameFind (run_simulation system upd) t = some s) :
    ∃ j : Nat, j < (system.t_end - system.t0).toNat + 1
      ∧ t = system.t0 + (j : Int)
      ∧ s = seq (fun s t => upd s t system) system.init system.t0 j := by
  rw [run_simulation_eq] at h
  obtain ⟨k, hk, hpk⟩ := List.mem_map.mp (frameFind_mem h)
  refine ⟨k, List.mem_range.mp hk, ?_, ?_⟩
  · exact (congrArg Prod.fst hpk).symm
  · exact (congrArg Prod.snd hpk).symm

/-- Length of chap12's simulation frame. -/
lemma run_simulation_length {α : Type} [Ring α] (system : System α)
    (upd : State α → Int → System α → State α) :
    (run_simulation system upd).length
      = (system.t_end - system.t0).toNat + 1 := by
  rw [run_simulation_eq]
  simp

/-- Length of chap14's simulation frame. -/
lemma run_simulation14_length {α : Type} [Ring α] (system : System α)
    (upd : State α → System α → State α) :
    (run_simulation14 system upd).length
      = (system.t_end - system.t0 + 1).toNat + 1 := by
  rw [run_simulation14_eq]
  simp

/-- A step function that conserves the compartment sum keeps the sum of
every state of the recurrence equal to the initial sum. -/
lemma seq_sum_eq {α : Type} [CommRing α] (u : State α → Int → State α)
    (hu : ∀ s t, (u s t).S + (u s t).I + (u s t).R = s.S + s.I + s.R)
    (init : State α) (t0 : Int) :
    ∀ k : Nat, (seq u init t0 k).S + (seq u init t0 k).I
      + (seq u init t0 k).R = init.S + init.I + init.R := by
  intro k
  induction k with
  | zero => rfl
  | succ k ih => rw [seq, hu, ih]

/-- C9: make_system stores beta and gamma unchanged and always uses the
initial state (89/90, 1/90, 0), which sums exactly to 1, with t0 = 0 and
t_end = 98; none of these depend on the arguments. -/
theorem claimC9 : ∀ (beta gamma : ℚ),
    make_system beta gamma
      = System.mk (State.mk (89/90) (1/90) 0) 0 98 beta gamma
  ∧ (make_system beta gamma).init.S + (make_system beta gamma).init.I
      + (make_system beta gamma).init.R = 1 := by
  intro b g
  constructor
  · simp only [make_system, System.mk.injEq, State.mk.injEq]
    norm_num
  · simp only [make_system]
    norm_num

/-- C10: the disease-free state is a fixed point of the update rule: with
I = 0 both chapters' update_func return the state unchanged, for every S,
R and all rates. -/
theorem claimC10 : ∀ (system : System ℚ) (t : Int) (s r : ℚ),
    update_func (State.mk s 0 r) t system = State.mk s 0 r
  ∧ update_func14 (State.mk s 0 r) system = State.mk s 0 r := by
  intro sys t s r
  constructor
  · simp only [update_func, State.mk.injEq]
    refine ⟨by ring, by ring, by ring⟩
  · simp only [update_func14, State.mk.injEq]
    refine ⟨by ring, by ring, by ring⟩

/-- C7: add_immunization subtracts the fraction from S and adds it to R in
the initial state, leaves I, beta, gamma, t0 and t_end unchanged, and
preserves the sum of the initial state. -/
theorem claimC7 : ∀ (system : System ℚ) (fraction : ℚ),
    (add_immunization system fraction).init.S = system.init.S - fraction
  ∧ (add_immunization system fraction).init.R = system.init.R + fraction
  ∧ (add_immunization system fraction).init.I = system.init.I
  ∧ (add_immunization system fraction).beta = system.beta
  ∧ (add_immunization system fraction).gamma = system.gamma
  ∧ (add_immunization system fraction).t0 = system.t0
  ∧ (add_immunization system fraction).t_end = system.t_end
  ∧ (add_immunization system fraction).init.S
      + (add_immunization system fraction).init.I
      + (add_immunization system fraction).init.R
      = system.init.S + system.init.I + system.init.R := by
  intro sys f
  refine ⟨rfl, rfl, rfl, rfl, rfl, rfl, rfl, ?_⟩
  simp only [add_immunization]
  ring

/-- C6: add_hand_washing multiplies beta by (1 - factor) where factor is
exactly the spec's generalized logistic expression with defaults A = 0,
C = 1, Q = 1, nu = 1 and configured M = 500, K = 0.2, B = 0.01, and it
changes no other field of the system. -/
theorem claimC6 : ∀ (system : System ℝ) (spending : ℝ),
    (add_hand_washing system spending).beta
      = system.beta * (1 - spec_hand_washing_factor spending)
  ∧ spec_hand_washing_factor spending = compute_factor spending
  ∧ (add_hand_washing system spending).init = system.init
  ∧ (add_hand_washing system spending).gamma = system.gamma
  ∧ (add_hand_washing system spending).t0 = system.t0
  ∧ (add_hand_washing system spending).t_end = system.t_end := by
  intro sys sp
  have hfac : spec_hand_washing_factor sp = compute_factor sp := rfl
  exact ⟨by rw [hfac]; rfl, hfac, rfl, rfl, rfl, rfl⟩

/-- C2: one application of either chapter's update rule conserves
S + I + R exactly, and consequently when the initial state sums to 1 every
entry of the series produced by either chapter's run_simulation sums
to 1. -/
theorem claimC2 : ∀ (state : State ℚ) (t : Int) (system : System ℚ),
    ((update_func state t system).S + (update_func state t system).I
      + (update_func state t system).R = state.S + state.I + state.R)
  ∧ ((update_func14 state system).S + (update_func14 state system).I
      + (update_func14 state system).R = state.S + state.I + state.R)
  ∧ (system.init.S + system.init.I + system.init.R = 1 →
      (∀ p ∈ run_simulation system update_func,
        p.2.S + p.2.I + p.2.R = 1)
      ∧ (∀ p ∈ run_simulation14 system update_func14,
        p.2.S + p.2.I + p.2.R = 1)) := by
  intro st t sys
  have hu : ∀ (s : State ℚ) (t : Int),
      (update_func s t sys).S + (update_func s t sys).I
        + (update_func s t sys).R = s.S + s.I + s.R := by
    intro s t
    simp only [update_func]
    ring
  have hu14 : ∀ (s : State ℚ) (t : Int),
      (update_func14 s sys).S + (update_func14 s sys).I
        + (update_func14 s sys).R = s.S + s.I + s.R := by
    intro s t
    simp only [update_func14]
    ring
  refine ⟨hu st t, hu14 st 0, ?_⟩
  intro h1
  constructor
  · intro p hp
    rw [run_simulation_eq] at hp
    obtain ⟨k, _, hpk⟩ := List.mem_map.mp hp
    rw [← hpk]
    exact (seq_sum_eq _ hu sys.init sys.t0 k).trans h1
  · intro p hp
    rw [run_simulation14_eq] at hp
    obtain ⟨k, _, hpk⟩ := List.mem_map.mp hp
    rw [← hpk]
    exact (seq_sum_eq _ (fun s t => hu14 s t) sys.init sys.t0 k).trans h1

/-- Witness for C2: a concrete system whose initial state sums to 1, and
the concrete day-1 entry of its simulation, which again sums to 1. -/
theorem claimC2_witness :
    ((1 : ℚ)/2 + 1/4 + 1/4 = 1) ∧ ((3 : ℚ)/8 + 1/8 + 1/2 = 1) :=
  ⟨by norm_num,
    ((claimC2 (State.mk 0 0 0) 0
        (System.mk (State.mk (1/2) (1/4) (1/4)) 0 1 1 1)).2.2
      (by norm_num)).1
      ((1 : Int), State.mk ((3 : ℚ)/8) (1/8) (1/2)) (by
        norm_num [run_simulation, linrange, frameSet, frameFind,
          update_func, List.range_succ])⟩


/-- C1 (amended): for every system with t0 < t_end, chap12's
run_simulation returns a series of length t_end - t0 + 1 whose entry at
t0 is system.init and whose entry at t + 1 is the update rule applied to
the entry at t; its loop runs over linrange(t0, t_end - 1), whose length
is t_end - t0, and its body invokes the update rule exactly once per
element, so exactly t_end - t0 update invocations occur.  chap14's
run_simulation instead loops over linrange(t0, t_end), performing
t_end - t0 + 1 update invocations and returning a series of length
t_end - t0 + 2. -/
theorem claimC1 (system : System ℚ) (h : system.t0 < system.t_end) :
    ((run_simulation system update_func).length : Int)
      = system.t_end - system.t0 + 1
  ∧ frameFind (run_simulation system update_func) system.t0
      = some system.init
  ∧ (∀ t : Int, system.t0 ≤ t → t < system.t_end →
      ∃ s : State ℚ,
        frameFind (run_simulation system update_func) t = some s
        ∧ frameFind (run_simulation system update_func) (t + 1)
            = some (update_func s t system))
  ∧ ((linrange system.t0 (system.t_end - 1)).length : Int)
      = system.t_end - system.t0
  ∧ ((run_simulation14 system update_func14).length : Int)
      = system.t_end - system.t0 + 2
  ∧ ((linrange system.t0 system.t_end).length : Int)
      = system.t_end - system.t0 + 1 := by
  refine ⟨?_, ?_, ?_, ?_, ?_, ?_⟩
  · rw [run_simulation_length]
    omega
  · have h0 := run_simulation_find system update_func 0 (by omega)
    simpa [seq] using h0
  · intro t ht1 ht2
    have hj : t = system.t0 + (((t - system.t0).toNat : Nat) : Int) := by
      omega
    have hjlt : (t - system.t0).toNat + 1
        < (system.t_end - system.t0).toNat + 1 := by omega
    have h1 := run_simulation_find system update_func (t - system.t0).toNat
      (by omega)
    have h2 := run_simulation_find system update_func
      ((t - system.t0).toNat + 1) hjlt
    refine ⟨seq (fun s t => update_func s t system) system.init system.t0
      (t - system.t0).toNat, ?_, ?_⟩
    · rw [show system.t0 + (((t - system.t0).toNat : Nat) : Int) = t from by
        omega] at h1
      exact h1
    · have hc : system.t0 + (((t - system.t0).toNat + 1 : Nat) : Int)
          = t + 1 := by omega
      rw [hc] at h2
      rw [h2]
      have hc2 : system.t0 + (((t - system.t0).toNat : Nat) : Int) = t := by
        omega
      simp only [seq, hc2]
  · rw [linrange_length, if_pos (by omega)]
    omega
  · rw [run_simulation14_length]
    omega
  · rw [linrange_length, if_pos (by omega)]
    omega

/-- Witness for C1: the amended statement instantiated at a concrete
system with t0 = 0 and t_end = 2. -/
theorem claimC1_witness :
    (0 : Int) < 2
  ∧ (((run_simulation (System.mk (State.mk (1 : ℚ) 0 0) 0 2 0 0)
        update_func).length : Int) = 2 - 0 + 1
    ∧ frameFind (run_simulation (System.mk (State.mk (1 : ℚ) 0 0) 0 2 0 0)
        update_func) 0 = some (State.mk 1 0 0)
    ∧ (∀ t : Int, (0 : Int) ≤ t → t < 2 →
        ∃ s : State ℚ,
          frameFind (run_simulation
            (System.mk (State.mk (1 : ℚ) 0 0) 0 2 0 0) update_func) t
            = some s
          ∧ frameFind (run_simulation
              (System.mk (State.mk (1 : ℚ) 0 0) 0 2 0 0) update_func) (t + 1)
              = some (update_func s t
                  (System.mk (State.mk (1 : ℚ) 0 0) 0 2 0 0)))
    ∧ ((linrange 0 (2 - 1)).length : Int) = 2 - 0
    ∧ ((run_simulation14 (System.mk (State.mk (1 : ℚ) 0 0) 0 2 0 0)
        update_func14).length : Int) = 2 - 0 + 2
    ∧ ((linrange 0 2).length : Int) = 2 - 0 + 1) :=
  ⟨by decide,
    claimC1 (System.mk (State.mk (1 : ℚ) 0 0) 0 2 0 0) (by decide)⟩

/-- Counterexample to C1 as stated: for chap14's run_simulation with
t0 = 0 and t_end = 1 the series has 3 entries, not t_end - t0 + 1 = 2,
and the loop runs over 2 times, not 1. -/
theorem claimC1_cex :
    ((run_simulation14 (System.mk (State.mk (1 : ℚ) 0 0) 0 1 0 0)
        update_func14).length : Int) = 3
  ∧ ¬ (((run_simulation14 (System.mk (State.mk (1 : ℚ) 0 0) 0 1 0 0)
        update_func14).length : Int) = 1 - 0 + 1)
  ∧ (linrange 0 1).length = 2 := by
  have hl := run_simulation14_length
    (System.mk (State.mk (1 : ℚ) 0 0) 0 1 0 0) update_func14
  refine ⟨?_, ?_, by decide⟩
  · rw [hl]
    decide
  · rw [hl]
    decide

/-- C3 (amended): for every system with t_end ≤ t0, chap12's
run_simulation silently returns the single-entry series mapping t0 to
system.init, its loop range being empty so that no update invocation
occurs.  chap14's run_simulation does the same only when t_end < t0; when
t_end = t0 its loop range still holds one time, so one update invocation
occurs and the returned series has two entries. -/
theorem claimC3 (system : System ℚ) (h : system.t_end ≤ system.t0) :
    run_simulation system update_func = [(system.t0, system.init)]
  ∧ (linrange system.t0 (system.t_end - 1)).length = 0
  ∧ (system.t_end < system.t0 →
      run_simulation14 system update_func14 = [(system.t0, system.init)])
  ∧ (system.t_end = system.t0 →
      (run_simulation14 system update_func14).length = 2
      ∧ (linrange system.t0 system.t_end).length = 1) := by
  refine ⟨?_, ?_, ?_, ?_⟩
  · rw [run_simulation_eq]
    have hn : (system.t_end - system.t0).toNat = 0 := by omega
    rw [hn]
    have h1 : List.range 1 = [0] := rfl
    simp [h1, seq]
  · rw [linrange_length, if_neg (by omega)]
  · intro hlt
    rw [run_simulation14_eq]
    have hn : (system.t_end - system.t0 + 1).toNat = 0 := by omega
    rw [hn]
    have h1 : List.range 1 = [0] := rfl
    simp [h1, seq]
  · intro heq
    constructor
    · rw [run_simulation14_length]
      omega
    · rw [linrange_length, if_pos (by omega)]
      omega

/-- Witness for C3: the amended statement instantiated at a concrete
system with t0 = 5 and t_end = 3. -/
theorem claimC3_witness :
    (3 : Int) ≤ 5
  ∧ (run_simulation (System.mk (State.mk (1 : ℚ) 0 0) 5 3 0 0) update_func
        = [(5, State.mk 1 0 0)]
    ∧ (linrange 5 (3 - 1)).length = 0
    ∧ ((3 : Int) < 5 →
        run_simulation14 (System.mk (State.mk (1 : ℚ) 0 0) 5 3 0 0)
          update_func14 = [(5, State.mk 1 0 0)])
    ∧ ((3 : Int) = 5 →
        (run_simulation14 (System.mk (State.mk (1 : ℚ) 0 0) 5 3 0 0)
          update_func14).length = 2
        ∧ (linrange 5 3).length = 1)) :=
  ⟨by decide,
    claimC3 (System.mk (State.mk (1 : ℚ) 0 0) 5 3 0 0) (by decide)⟩

/-- Counterexample to C3 as stated: for chap14's run_simulation with
t0 = 0 and t_end = 0 the series has 2 entries rather than 1, and the loop
runs over one time rather than none. -/
theorem claimC3_cex :
    (run_simulation14 (System.mk (State.mk (1 : ℚ) 0 0) 0 0 0 0)
        update_func14).length = 2
  ∧ ¬ ((run_simulation14 (System.mk (State.mk (1 : ℚ) 0 0) 0 0 0 0)
        update_func14).length = 1)
  ∧ (linrange 0 0).length = 1 := by
  have hl := run_simulation14_length
    (System.mk (State.mk (1 : ℚ) 0 0) 0 0 0 0) update_func14
  refine ⟨?_, ?_, by decide⟩
  · rw [hl]
    decide
  · rw [hl]
    decide

/-- With beta = 0 and 0 ≤ gamma ≤ 1, the infected fraction of the step
recurrence stays nonnegative when it starts nonnegative. -/
lemma seq_I_nonneg (system : System ℚ) (hb : system.beta = 0)
    (hg1 : system.gamma ≤ 1)
    (hI : 0 ≤ system.init.I) :
    ∀ k : Nat, 0 ≤ (seq (fun s t => update_func s t system)
      system.init system.t0 k).I := by
  intro k
  induction k with
  | zero => exact hI
  | succ k ih =>
    have hstep : (seq (fun s t => update_func s t system)
          system.init system.t0 (k + 1)).I
        = (1 - system.gamma) * (seq (fun s t => update_func s t system)
          system.init system.t0 k).I := by
      simp only [seq, update_func]
      rw [hb]
      ring
    rw [hstep]
    exact mul_nonneg (by linarith) ih

/-- C8 (amended): with beta = 0, 0 ≤ gamma ≤ 1 and a nonnegative initial
infected fraction, consecutive entries of the series satisfy
I(t + 1) ≤ I(t), with equality only if gamma = 0 or I(t) = 0. -/
theorem claimC8 (system : System ℚ) (hb : system.beta = 0)
    (hg0 : 0 ≤ system.gamma) (hg1 : system.gamma ≤ 1)
    (hI : 0 ≤ system.init.I) :
    ∀ (t : Int) (s s' : State ℚ),
      frameFind (run_simulation system update_func) t = some s →
      frameFind (run_simulation system update_func) (t + 1) = some s' →
      s'.I ≤ s.I ∧ (s'.I = s.I → system.gamma = 0 ∨ s.I = 0) := by
  intro t s s' h1 h2
  obtain ⟨j, hj, ht, hs⟩ := run_simulation_find_inv h1
  obtain ⟨j', hj', ht', hs'⟩ := run_simulation_find_inv h2
  have hjj : j' = j + 1 := by omega
  subst hjj
  have hIj : 0 ≤ (seq (fun s t => update_func s t system)
      system.init system.t0 j).I := seq_I_nonneg system hb hg1 hI j
  rw [← hs] at hIj
  have hstep : s'.I = s.I - system.gamma * s.I := by
    rw [hs', hs]
    simp only [seq, update_func]
    rw [hb]
    ring
  constructor
  · rw [hstep]
    have := mul_nonneg hg0 hIj
    linarith
  · intro he
    rw [hstep] at he
    have hz : system.gamma * s.I = 0 := by linarith
    exact mul_eq_zero.mp hz

/-- Witness for C8: the amended statement instantiated at a concrete
system with beta = 0, gamma = 1 and initial state (0, 1, 0), at the step
from day 0 to day 1. -/
theorem claimC8_witness :
    (System.mk (State.mk (0 : ℚ) 1 0) 0 1 0 1).beta = 0
  ∧ (0 : ℚ) ≤ 1
  ∧ ((State.mk (0 : ℚ) 0 1).I ≤ (State.mk (0 : ℚ) 1 0).I
      ∧ ((State.mk (0 : ℚ) 0 1).I = (State.mk (0 : ℚ) 1 0).I →
          (System.mk (State.mk (0 : ℚ) 1 0) 0 1 0 1).gamma = 0
          ∨ (State.mk (0 : ℚ) 1 0).I = 0)) :=
  ⟨rfl, by norm_num,
    claimC8 (System.mk (State.mk (0 : ℚ) 1 0) 0 1 0 1) rfl
      (by norm_num) (by norm_num) (by norm_num)
      0 (State.mk 0 1 0) (State.mk 0 0 1)
      (by norm_num [run_simulation, linrange, frameSet, frameFind,
        update_func, List.range_succ])
      (by norm_num [run_simulation, linrange, frameSet, frameFind,
        update_func, List.range_succ])⟩

/-- Counterexample to C8 as stated: with beta = 0, gamma = 2 ≥ 0 and
initial state (0, 1, 0) with I = 1 ≥ 0, the run has I = -1 on day 1 and
I = 1 on day 2, so the infected fraction increases within the run. -/
theorem claimC8_cex :
    (System.mk (State.mk (0 : ℚ) 1 0) 0 2 0 2).beta = 0
  ∧ (0 : ℚ) ≤ (System.mk (State.mk (0 : ℚ) 1 0) 0 2 0 2).gamma
  ∧ (0 : ℚ) ≤ (System.mk (State.mk (0 : ℚ) 1 0) 0 2 0 2).init.I
  ∧ frameFind (run_simulation (System.mk (State.mk (0 : ℚ) 1 0) 0 2 0 2)
      update_func) 1 = some (State.mk 0 (-1) 2)
  ∧ frameFind (run_simulation (System.mk (State.mk (0 : ℚ) 1 0) 0 2 0 2)
      update_func) 2 = some (State.mk 0 1 0)
  ∧ ¬ ((State.mk (0 : ℚ) 1 0).I ≤ (State.mk (0 : ℚ) (-1) 2).I) := by
  refine ⟨rfl, by norm_num, by norm_num, ?_, ?_, by norm_num⟩
  · norm_num [run_simulation, linrange, frameSet, frameFind, update_func,
      List.range_succ]
  · norm_num [run_simulation, linrange, frameSet, frameFind, update_func,
      List.range_succ]

/-- C4: the two-parameter sweep of chap14 has one column per gamma in
input order, each column equal to the one-parameter sweep over the beta
values with that gamma fixed, so it has as many rows as beta values and
as many columns as gamma values, and the cell for (beta, gamma) is the
total-infected summary of the simulation of make_system(beta, gamma). -/
theorem claimC4 : ∀ (A B : List ℚ),
    sweep_parameters A B = B.map (fun g => (g, sweep_beta A g))
  ∧ (∀ g : ℚ, sweep_beta A g = A.map (fun b =>
      (b, calc_total_infected
            (run_simulation14 (make_system b g) update_func14)
            (make_system b g))))
  ∧ (sweep_parameters A B).length = B.length
  ∧ (sweep_parameters A B).map (fun col => col.2.length)
      = B.map (fun _ => A.length) := by
  intro A B
  have hsb : ∀ g : ℚ, sweep_beta A g = A.map (fun b =>
      (b, calc_total_infected
            (run_simulation14 (make_system b g) update_func14)
            (make_system b g))) := by
    intro g
    have h := foldl_append_map (fun b =>
      ((make_system b g).beta, calc_total_infected
        (run_simulation14 (make_system b g) update_func14)
        (make_system b g))) A []
    rw [List.nil_append] at h
    exact h
  have hsp : sweep_parameters A B = B.map (fun g => (g, sweep_beta A g)) := by
    have h := foldl_append_map (fun g => (g, sweep_beta A g)) B []
    rw [List.nil_append] at h
    exact h
  refine ⟨hsp, hsb, ?_, ?_⟩
  · rw [hsp]
    simp
  · rw [hsp, List.map_map]
    refine List.map_congr_left ?_
    intro g _
    simp [Function.comp, hsb g]

/-- C5: chap12's one-parameter sweep over spending values records, in
input order, one entry per value whose key is the value and whose summary
is calc_total_infected of a simulation constructed independently for that
value alone; the summary equals S at t0 minus S at t_end of that run, and
the empty input yields the empty sweep. -/
theorem claimC5 :
    sweep_hand_washing [] = []
  ∧ (∀ arr : List ℝ, sweep_hand_washing arr = arr.map (fun v =>
      (v, calc_total_infected
            (run_simulation (add_hand_washing (make_system beta gamma) v)
              update_func)
            (add_hand_washing (make_system beta gamma) v))))
  ∧ (∀ v : ℝ, ∃ s0 s98 : State ℝ,
      frameFind
          (run_simulation (add_hand_washing (make_system beta gamma) v)
            update_func)
          (add_hand_washing (make_system beta gamma) v).t0 = some s0
      ∧ frameFind
          (run_simulation (add_hand_washing (make_system beta gamma) v)
            update_func)
          (add_hand_washing (make_system beta gamma) v).t_end = some s98
      ∧ calc_total_infected
            (run_simulation (add_hand_washing (make_system beta gamma) v)
              update_func)
            (add_hand_washing (make_system beta gamma) v)
          = s0.S - s98.S) := by
  refine ⟨rfl, ?_, ?_⟩
  · intro arr
    have h := foldl_append_map (fun v =>
      (v, calc_total_infected
            (run_simulation (add_hand_washing (make_system beta gamma) v)
              update_func)
            (add_hand_washing (make_system beta gamma) v))) arr []
    rw [List.nil_append] at h
    exact h
  · intro v
    have ht0 : (add_hand_washing (make_system beta gamma) v).t0 = 0 := rfl
    have hte : (add_hand_washing (make_system beta gamma) v).t_end = 98 :=
      rfl
    have hcnt : ((add_hand_washing (make_system beta gamma) v).t_end
        - (add_hand_washing (make_system beta gamma) v).t0).toNat + 1
        = 99 := by
      rw [ht0, hte]
      decide
    have h0 := run_simulation_find
      (add_hand_washing (make_system beta gamma) v) update_func 0
      (by rw [hcnt]; norm_num)
    have h98 := run_simulation_find
      (add_hand_washing (make_system beta gamma) v) update_func 98
      (by rw [hcnt]; norm_num)
    have h0' : frameFind
        (run_simulation (add_hand_washing (make_system beta gamma) v)
          update_func)
        (add_hand_washing (make_system beta gamma) v).t0
        = some (seq (fun s t =>
            update_func s t (add_hand_washing (make_system beta gamma) v))
          (add_hand_washing (make_system beta gamma) v).init
          (add_hand_washing (make_system beta gamma) v).t0 0) := by
      simpa using h0
    have h98' : frameFind
        (run_simulation (add_hand_washing (make_system beta gamma) v)
          update_func)
        (add_hand_washing (make_system beta gamma) v).t_end
        = some (seq (fun s t =>
            update_func s t (add_hand_washing (make_system beta gamma) v))
          (add_hand_washing (make_system beta gamma) v).init
          (add_hand_washing (make_system beta gamma) v).t0 98) := by
      have hc : (add_hand_washing (make_system beta gamma) v).t0
          + ((98 : Nat) : Int)
          = (add_hand_washing (make_system beta gamma) v).t_end := by
        rw [ht0, hte]
        decide
      rw [hc] at h98
      exact h98
    refine ⟨_, _, h0', h98', ?_⟩
    simp only [calc_total_infected, h0', h98', Option.getD_some]

end SIR
